import Mathlib

/-!
# ParcelStore: a data-access layer over one SQL table

Shallow embedding of `parcel.go`.  The store is a thin layer over a
`database/sql` handle; each method issues one statement and translates the
outcome.  The embedding has three layers:

* the data the statements work on (`Parcel`, `DB`);
* the storage collaborator: what each of the six statements of `parcel.go`
  does on the table (`DB.exec`, `DB.select`) and the shape in which
  `database/sql` hands outcomes back (`ExecContext`, `QueryRowContext`,
  `QueryContext`, `Result`, `Row`, `Rows`);
* the six methods of `ParcelStore`, translated statement by statement.

Go's `int` is taken to be 64 bits wide (every 64-bit target), so binding an
`int` as a statement argument and scanning an INTEGER column back into an `int`
are the identity; the one explicit conversion in the source, `int(newId)`, is
kept as `toInt`.
-/

namespace ParcelStore

/-! ## Data model -/

/-- Modelled from the spec: the declaration of type Parcel is not in `parcel.go`
or `parcel_test.go`; the five fields and their types are the ones of section 3 of
the specification and of the uses in the tests (`Number`, `Client` are `int`,
`Status`, `Address`, `CreatedAt` are strings). -/
structure Parcel where
  Number : Int
  Client : Int
  Status : String
  Address : String
  CreatedAt : String
deriving DecidableEq, Repr

/-- The Go zero value `Parcel{}`. -/
def Parcel.zero : Parcel :=
  { Number := 0, Client := 0, Status := "", Address := "", CreatedAt := "" }

/-- Modelled from the spec: the constant ParcelStatusRegistered is declared outside
the listed sources; its value is the status `registered` of section 3. -/
def ParcelStatusRegistered : String := "registered"

/-- Modelled from the spec: the constant ParcelStatusSent is declared outside the
listed sources; its value is the status `sent` of section 3. -/
def ParcelStatusSent : String := "sent"

/-- A failure reported by the storage layer (connectivity, cancellation, a full
database, ...).  The store never creates one itself. -/
structure DriverError where
  msg : String
deriving DecidableEq, Repr

/-- Go `error` values the store can return.  `ErrNoRowsDeleted` and
`ErrNoRowsUpdated` are the two package variables of `parcel.go`, `ErrNoRows` is
`sql.ErrNoRows`, and `storage e` is an error of the storage layer passed on as
it is.  Go compares errors by identity, so the four kinds are distinct. -/
inductive Error where
  | ErrNoRowsDeleted
  | ErrNoRowsUpdated
  | ErrNoRows
  | storage (e : DriverError)
deriving DecidableEq, Repr

open Error

/-- The outcome of running a Go function: it returns its results, or it panics
and the panic unwinds into the caller. -/
inductive GoResult (α : Type) where
  | returned (a : α)
  | panicked (msg : String)
deriving DecidableEq, Repr

/-- The message of the run-time panic raised by a nil pointer dereference. -/
def nilDereference : String :=
  "runtime error: invalid memory address or nil pointer dereference"

/-! ## The storage collaborator -/

/-- Modelled from the spec: the schema of table `parcel` is not in the listed
sources; section 6 gives it as
`parcel(number PK autoincrement, client, status, address, created_at)`.
`rows` is the content of the table and `seq` the largest key the
autoincrement counter has handed out. -/
structure DB where
  rows : List Parcel
  seq : Nat
deriving DecidableEq, Repr

/-- The primary-key constraint: no two rows share a `number`. -/
def DB.WF (db : DB) : Prop := (db.rows.map Parcel.Number).Nodup

instance DB.decidableWF (db : DB) : Decidable db.WF :=
  inferInstanceAs (Decidable (db.rows.map Parcel.Number).Nodup)

/-- Largest value of a 64-bit signed integer, the range of a row id. -/
def maxInt64 : Int := 9223372036854775807

/-- The Go conversion `int(x)` of an `int64` on a 64-bit target: the value
reduced to the signed 64-bit range. -/
def toInt (x : Int) : Int := (x + 2 ^ 63) % 2 ^ 64 - 2 ^ 63

/-- The data-changing statements of `parcel.go`, each with its bound arguments
in the order of the named parameters of the query text. -/
inductive Stmt where
  /-- Statement `INSERT INTO parcel (client, status, address, created_at)
  VALUES (:client, :status, :address, :created_at)` -/
  | insert (client : Int) (status address createdAt : String)
  /-- Statement `UPDATE parcel SET status = :status WHERE number = :number` -/
  | updateStatus (status : String) (number : Int)
  /-- Statement `UPDATE parcel SET address = :address WHERE number = :number AND status = :status` -/
  | updateAddress (address : String) (number : Int) (status : String)
  /-- Statement `DELETE FROM parcel WHERE number = :number AND status = :status` -/
  | delete (number : Int) (status : String)
deriving DecidableEq, Repr

/-- The two queries of `parcel.go`; both project
`number, client, status, address, created_at`. -/
inductive Query where
  /-- Query `... FROM parcel WHERE number=:number` -/
  | byNumber (number : Int)
  /-- Query `... FROM parcel WHERE client=:client` -/
  | byClient (client : Int)
deriving DecidableEq, Repr

/-- The `sql.Result` of an executed statement. -/
structure Result where
  LastInsertId : Except Error Int
  RowsAffected : Except Error Int

/-- The largest key in use or ever handed out. -/
def DB.maxNumber (db : DB) : Int :=
  db.rows.foldl (fun m r => max m r.Number) (db.seq : Int)

/-- The rows a `WHERE number = n AND status = st` clause selects. -/
def matchesNumberStatus (n : Int) (st : String) (r : Parcel) : Bool :=
  decide (r.Number = n) && decide (r.Status = st)

/-- What the engine does with a statement: the `sql.Result` and the table
afterwards, or a failure that leaves the table as it was.  An insert takes the
key after the largest one ever used and fails once the 64-bit key space is
exhausted; an update counts every row its `WHERE` clause selects, whether or not
the new value differs from the old one. -/
def DB.exec (db : DB) : Stmt → Except DriverError (Result × DB)
  | .insert client status address createdAt =>
    let newId := db.maxNumber + 1
    let row : Parcel :=
      { Number := newId, Client := client, Status := status, Address := address,
        CreatedAt := createdAt }
    if newId > maxInt64 then
      .error ⟨"database or disk is full"⟩
    else
      .ok ({ LastInsertId := .ok newId, RowsAffected := .ok 1 },
           { rows := db.rows ++ [row], seq := newId.toNat })
  | .updateStatus status number =>
    let hit := fun (r : Parcel) => decide (r.Number = number)
    let rows := db.rows.map (fun r => if hit r then { r with Status := status } else r)
    .ok ({ LastInsertId := .ok db.seq, RowsAffected := .ok (db.rows.countP hit) },
         { db with rows := rows })
  | .updateAddress address number status =>
    let hit := matchesNumberStatus number status
    let rows := db.rows.map (fun r => if hit r then { r with Address := address } else r)
    .ok ({ LastInsertId := .ok db.seq, RowsAffected := .ok (db.rows.countP hit) },
         { db with rows := rows })
  | .delete number status =>
    let hit := matchesNumberStatus number status
    let rows := db.rows.filter (fun r => !hit r)
    .ok ({ LastInsertId := .ok db.seq, RowsAffected := .ok (db.rows.countP hit) },
         { db with rows := rows })

/-- The rows a query selects, in table order. -/
def DB.select (db : DB) : Query → List Parcel
  | .byNumber number => db.rows.filter (fun r => decide (r.Number = number))
  | .byClient client => db.rows.filter (fun r => decide (r.Client = client))

/-- Method `(*sql.DB).ExecContext`.  `fault` is the failure the storage layer reports
for this call, if any (lost connection, cancelled context, ...); a failed call
has no effect on the table. -/
def ExecContext (db : DB) (fault : Option DriverError) (stmt : Stmt) :
    Except Error Result × DB :=
  match fault with
  | some e => (.error (storage e), db)
  | none =>
    match db.exec stmt with
    | .error e => (.error (storage e), db)
    | .ok (res, db') => (.ok res, db')

/-- The `*sql.Row` of `QueryRowContext`: a deferred error or the selected rows. -/
structure Row where
  err : Option Error
  selected : List Parcel

/-- Method `(*sql.DB).QueryRowContext`: never nil, a failure is kept for `Scan`. -/
def QueryRowContext (db : DB) (fault : Option DriverError) (q : Query) : Row :=
  match fault with
  | some e => { err := some (storage e), selected := [] }
  | none => { err := none, selected := db.select q }

/-- Method `(*sql.Row).Scan`: the deferred error, else `sql.ErrNoRows` when nothing was
selected, else the columns of the first selected row. -/
def Row.Scan (row : Row) : Except Error Parcel :=
  match row.err with
  | some e => .error e
  | none =>
    match row.selected with
    | [] => .error ErrNoRows
    | p :: _ => .ok p

/-- What can go wrong while a multi-row query is served. -/
inductive QueryFault where
  /-- nothing -/
  | none
  /-- the call of `QueryContext` itself fails -/
  | query (e : DriverError)
  /-- the row at position `i` cannot be scanned -/
  | scan (i : Nat) (e : DriverError)
  /-- the cursor breaks after `i` rows -/
  | cursor (i : Nat) (e : DriverError)
deriving DecidableEq, Repr

/-- An open `*sql.Rows`: what each successive `Next`/`Scan` pair yields, and
the value of `Err()` once `Next` has reported false. -/
structure Rows where
  pending : List (Except DriverError Parcel)
  err : Option DriverError

/-- Method `(*sql.DB).QueryContext`.  On failure the rows handle is nil (`none`) and
the error is set; otherwise the handle streams the selected rows. -/
def QueryContext (db : DB) (fault : QueryFault) (q : Query) : Option Rows × Option Error :=
  match fault with
  | .query e => (Option.none, some (storage e))
  | .none => (some { pending := (db.select q).map .ok, err := Option.none }, Option.none)
  | .scan i e =>
    (some { pending := (db.select q).enum.map
                (fun ir => if ir.1 = i then .error e else .ok ir.2),
            err := Option.none }, Option.none)
  | .cursor i e =>
    (some { pending := ((db.select q).take i).map .ok, err := some e }, Option.none)

/-- Method `(*sql.Rows).Close` called through a possibly nil handle.  The method reads
fields of its receiver, so a nil receiver is a nil pointer dereference. -/
def Rows.Close : Option Rows → GoResult (Option Error)
  | Option.none => .panicked nilDereference
  | some _ => .returned Option.none

/-- A function body with one deferred call: the deferred call runs when the
body is done, and if it panics the function panics instead of returning. -/
def withDeferred {α β : Type} (deferred : GoResult β) (body : GoResult α) : GoResult α :=
  match deferred with
  | .panicked msg => .panicked msg
  | .returned _ => body

/-! ## The methods of `ParcelStore` -/

/-- Method `ParcelStore.Add`: returns `(id, err)` and the table afterwards. -/
def Add (db : DB) (fault : Option DriverError) (p : Parcel) : (Int × Option Error) × DB :=
  match ExecContext db fault
      (.insert p.Client ParcelStatusRegistered p.Address p.CreatedAt) with
  | (.error err, db') => ((0, some err), db')
  | (.ok res, db') =>
    match res.LastInsertId with
    | .error err => ((0, some err), db')
    | .ok newId => ((toInt newId, none), db')

/-- Method `ParcelStore.Get`: returns `(parcel, err)`; the table is not touched. -/
def Get (db : DB) (fault : Option DriverError) (number : Int) : Parcel × Option Error :=
  let row := QueryRowContext db fault (.byNumber number)
  match row.Scan with
  | .error err => (Parcel.zero, some err)
  | .ok p => (p, none)

/-- The `for rows.Next()` loop of `GetByClient`: scan each row and append it to
`res`; a failed scan ends the function with that error. -/
def GetByClient.loop : List (Except DriverError Parcel) → List Parcel → Except Error (List Parcel)
  | [], res => .ok res
  | .error e :: _, _ => .error (storage e)
  | .ok p :: rest, res => GetByClient.loop rest (res ++ [p])

/-- Method `ParcelStore.GetByClient`: returns `(parcels, err)` where a nil slice is
`none` and `make([]Parcel, 0)` is `some []`.  `defer rows.Close()` is registered
right after the query, before `err` is looked at. -/
def GetByClient (db : DB) (fault : QueryFault) (client : Int) :
    GoResult (Option (List Parcel) × Option Error) :=
  match QueryContext db fault (.byClient client) with
  | (rows, err) =>
    withDeferred (Rows.Close rows)
      (match err with
       | some e => .returned (none, some e)
       | none =>
         match rows with
         | none => .panicked nilDereference
         | some rs =>
           match GetByClient.loop rs.pending [] with
           | .error e => .returned (none, some e)
           | .ok res =>
             match rs.err with
             | some e => .returned (none, some (storage e))
             | none => .returned (some res, none))

/-- Method `ParcelStore.SetStatus`: returns `err` and the table afterwards. -/
def SetStatus (db : DB) (fault : Option DriverError) (number : Int) (status : String) :
    Option Error × DB :=
  match ExecContext db fault (.updateStatus status number) with
  | (.error err, db') => (some err, db')
  | (.ok res, db') =>
    match res.RowsAffected with
    | .error err => (some err, db')
    | .ok count => if count = 0 then (some ErrNoRowsUpdated, db') else (none, db')

/-- Method `ParcelStore.SetAddress`: returns `err` and the table afterwards. -/
def SetAddress (db : DB) (fault : Option DriverError) (number : Int) (address : String) :
    Option Error × DB :=
  match ExecContext db fault (.updateAddress address number ParcelStatusRegistered) with
  | (.error err, db') => (some err, db')
  | (.ok res, db') =>
    match res.RowsAffected with
    | .error err => (some err, db')
    | .ok count => if count = 0 then (some ErrNoRowsUpdated, db') else (none, db')

/-- Method `ParcelStore.Delete`: returns `err` and the table afterwards. -/
def Delete (db : DB) (fault : Option DriverError) (number : Int) : Option Error × DB :=
  match ExecContext db fault (.delete number ParcelStatusRegistered) with
  | (.error err, db') => (some err, db')
  | (.ok res, db') =>
    match res.RowsAffected with
    | .error err => (some err, db')
    | .ok count => if count = 0 then (some ErrNoRowsDeleted, db') else (none, db')

/-- The row an insert of `p` writes under key `id`. -/
def insertedRow (id : Int) (p : Parcel) : Parcel :=
  { Number := id, Client := p.Client, Status := ParcelStatusRegistered,
    Address := p.Address, CreatedAt := p.CreatedAt }

/-! ## Sequences of operations -/

/-- The operations that change the table. -/
inductive Op where
  | add (p : Parcel)
  | setStatus (number : Int) (status : String)
  | setAddress (number : Int) (address : String)
  | delete (number : Int)
deriving DecidableEq, Repr

/-- The table after one operation, issued while the storage layer is in the
state `fault`. -/
def Op.run (db : DB) (fault : Option DriverError) : Op → DB
  | .add p => (Add db fault p).2
  | .setStatus number status => (SetStatus db fault number status).2
  | .setAddress number address => (SetAddress db fault number address).2
  | .delete number => (Delete db fault number).2

/-- The table after a sequence of operations. -/
def runAll (db : DB) : List (Option DriverError × Op) → DB
  | [] => db
  | (fault, op) :: rest => runAll (op.run db fault) rest

/-- The parcel `id` is stored and is not `registered`. -/
def Blocked (db : DB) (id : Int) : Prop :=
  (∃ r ∈ db.rows, r.Number = id) ∧ ∀ r ∈ db.rows, r.Number = id → r.Status ≠ "registered"

/-! ## Concrete tables and parcels used to instantiate the theorems -/

/-- The empty table, before any key was handed out. -/
def emptyDB : DB := { rows := [], seq := 0 }

/-- A parcel as a caller may pass it to `Add`: a status other than `registered`
and a number of its own. -/
def sampleParcel : Parcel :=
  { Number := 42, Client := 1000, Status := "sent", Address := "test",
    CreatedAt := "2024-01-01T00:00:00Z" }

/-- A registered parcel under key 1. -/
def registeredOne : Parcel :=
  { Number := 1, Client := 7, Status := "registered", Address := "a", CreatedAt := "t1" }

/-- A sent parcel under key 2. -/
def sentTwo : Parcel :=
  { Number := 2, Client := 7, Status := "sent", Address := "b", CreatedAt := "t2" }

/-- A table holding `registeredOne` and `sentTwo`. -/
def twoParcels : DB := { rows := [registeredOne, sentTwo], seq := 2 }

/-- The table after `sampleParcel` was added to the empty table and its status
was set to `sent`. -/
def sentState : DB :=
  runAll emptyDB [(none, .add sampleParcel), (none, .setStatus 1 ParcelStatusSent)]

/-- Operations issued after parcel 1 was sent: a further `Add`, a
`SetStatus(1, "delivered")`, a `SetAddress` and a `Delete`. -/
def laterOps : List (Option DriverError × Op) :=
  [(none, .add sampleParcel), (none, .setStatus 1 "delivered"), (none, .setAddress 1 "x"),
   (none, .delete 1)]

/-! ## Auxiliary facts about the storage collaborator -/

theorem foldl_max_ge_init (rows : List Parcel) (m : Int) :
    m ≤ rows.foldl (fun m r => max m r.Number) m := by
  induction rows generalizing m with
  | nil => simp
  | cons r rs ih =>
    simp only [List.foldl_cons]
    exact le_trans (le_max_left _ _) (ih _)

theorem foldl_max_ge_mem (rows : List Parcel) (m : Int) (r : Parcel) (hr : r ∈ rows) :
    r.Number ≤ rows.foldl (fun m r => max m r.Number) m := by
  induction rows generalizing m with
  | nil => simp at hr
  | cons x xs ih =>
    simp only [List.foldl_cons]
    rcases List.mem_cons.mp hr with h | h
    · subst h
      exact le_trans (le_max_right _ _) (foldl_max_ge_init xs _)
    · exact ih _ h

/-- Every key in the table is at most `maxNumber`. -/
theorem number_le_maxNumber (db : DB) (r : Parcel) (hr : r ∈ db.rows) :
    r.Number ≤ db.maxNumber :=
  foldl_max_ge_mem db.rows _ r hr

/-- The autoincrement counter is non-negative, so `maxNumber` is. -/
theorem maxNumber_nonneg (db : DB) : 0 ≤ db.maxNumber :=
  le_trans (Int.ofNat_nonneg db.seq) (foldl_max_ge_init db.rows _)

/-- Inside the signed 64-bit range the conversion `int(x)` changes nothing. -/
theorem toInt_of_range (x : Int) (h0 : 0 ≤ x) (h1 : x ≤ maxInt64) : toInt x = x := by
  unfold toInt
  unfold maxInt64 at h1
  norm_num
  omega

/-- A successful `Add` took the key after `maxNumber`, within the 64-bit range,
and appended the new row with status `registered`. -/
theorem Add_ok_inv (db db' : DB) (fault : Option DriverError) (p : Parcel) (id : Int)
    (h : Add db fault p = ((id, none), db')) :
    fault = none ∧ id = db.maxNumber + 1 ∧ id ≤ maxInt64 ∧
      db' = { rows := db.rows ++ [insertedRow id p], seq := id.toNat } := by
  cases fault with
  | some e => simp [Add, ExecContext] at h
  | none =>
    by_cases hfull : db.maxNumber + 1 > maxInt64
    · simp [Add, ExecContext, DB.exec, hfull] at h
    · have hle : db.maxNumber + 1 ≤ maxInt64 := not_lt.mp hfull
      have hconv : toInt (db.maxNumber + 1) = db.maxNumber + 1 :=
        toInt_of_range _ (by have := maxNumber_nonneg db; omega) hle
      simp [Add, ExecContext, DB.exec, hfull, hconv] at h
      obtain ⟨hid, hdb⟩ := h
      subst hid
      refine ⟨rfl, rfl, hle, ?_⟩
      rw [← hdb]
      rfl

/-- What `Get` returns when the storage layer serves the query: the first row
with the key, or the zero parcel and `sql.ErrNoRows`. -/
theorem Get_served (db : DB) (number : Int) :
    Get db none number =
      match db.rows.filter (fun r => decide (r.Number = number)) with
      | [] => (Parcel.zero, some ErrNoRows)
      | p :: _ => (p, none) := by
  simp only [Get, QueryRowContext, Row.Scan, DB.select]
  cases db.rows.filter (fun r => decide (r.Number = number)) <;> rfl

/-- No row of the table carries a key above `maxNumber`. -/
theorem filter_fresh_eq_nil (db : DB) (id : Int) (hid : db.maxNumber < id) :
    db.rows.filter (fun r => decide (r.Number = id)) = [] := by
  rw [List.filter_eq_nil_iff]
  intro r hr
  have := number_le_maxNumber db r hr
  simp only [decide_eq_true_eq]
  omega

/-! ## Add and Get -/

/-- C1. Add/Get round trip: whenever `Add(p)` returns `(id, nil)`, whatever the
table held and whatever `p.Status` and `p.Number` were, a `Get(id)` served right
after it returns a nil error and the parcel with `Number = id`, the client,
address and creation time of `p`, and status `registered`. -/
theorem Add_Get_roundtrip (db db' : DB) (fault : Option DriverError) (p : Parcel) (id : Int)
    (h : Add db fault p = ((id, none), db')) :
    Get db' none id =
      ({ Number := id, Client := p.Client, Status := "registered", Address := p.Address,
         CreatedAt := p.CreatedAt }, none) := by
  obtain ⟨_, hid, _, hdb⟩ := Add_ok_inv db db' fault p id h
  have hfresh := filter_fresh_eq_nil db id (by omega)
  rw [Get_served, hdb]
  simp [List.filter_append, hfresh, insertedRow, ParcelStatusRegistered]

/-- C1 at a concrete input: adding `sampleParcel` to the empty table returns key 1,
and reading key 1 back shows status `registered` and number 1. -/
theorem Add_Get_roundtrip_witness :
    Add emptyDB none sampleParcel =
        ((1, none), { rows := [insertedRow 1 sampleParcel], seq := 1 }) ∧
      Get { rows := [insertedRow 1 sampleParcel], seq := 1 } none 1 =
        ({ Number := 1, Client := 1000, Status := "registered", Address := "test",
           CreatedAt := "2024-01-01T00:00:00Z" }, none) :=
  have hadd : Add emptyDB none sampleParcel =
      ((1, none), { rows := [insertedRow 1 sampleParcel], seq := 1 }) := by decide
  ⟨hadd, Add_Get_roundtrip emptyDB _ none sampleParcel 1 hadd⟩

/-! ## Delete -/

theorem matchesNumberStatus_iff (n : Int) (st : String) (r : Parcel) :
    matchesNumberStatus n st r = true ↔ r.Number = n ∧ r.Status = st := by
  simp [matchesNumberStatus]

/-- What `Delete` does when the storage layer serves the statement. -/
theorem Delete_served (db : DB) (number : Int) :
    Delete db none number =
      (if db.rows.countP (matchesNumberStatus number ParcelStatusRegistered) = 0
        then some ErrNoRowsDeleted else none,
       ⟨db.rows.filter (fun r => !matchesNumberStatus number ParcelStatusRegistered r),
        db.seq⟩) := by
  simp only [Delete, ExecContext, DB.exec]
  split_ifs with h1 h2 h2
  · rfl
  · exact absurd (by exact_mod_cast h1) h2
  · exact absurd (by exact_mod_cast h2) h1
  · rfl

/-- Under the primary-key constraint a row is the only one with its key. -/
theorem eq_of_number_eq (db : DB) (hwf : db.WF) (r x : Parcel) (hr : r ∈ db.rows)
    (hx : x ∈ db.rows) (h : x.Number = r.Number) : x = r :=
  List.inj_on_of_nodup_map hwf hx hr h

/-- C2. If a row with `number = id` exists and its status is `registered`, a served
`Delete(id)` returns nil and removes exactly that row: the table afterwards is the
old one without it, every other row being kept as it was, and a `Get(id)` served
afterwards fails with `sql.ErrNoRows`. -/
theorem Delete_registered (db : DB) (hwf : db.WF) (id : Int) (r : Parcel)
    (hr : r ∈ db.rows) (hnum : r.Number = id) (hst : r.Status = "registered") :
    Delete db none id = (none, { db with rows := db.rows.erase r }) ∧
      (∀ x, x ∈ (Delete db none id).2.rows ↔ x ∈ db.rows ∧ x ≠ r) ∧
      Get (Delete db none id).2 none id = (Parcel.zero, some ErrNoRows) := by
  have hnodup : db.rows.Nodup := List.Nodup.of_map _ hwf
  have hfilter : db.rows.filter
      (fun x => !matchesNumberStatus id ParcelStatusRegistered x) = db.rows.erase r := by
    rw [hnodup.erase_eq_filter]
    apply List.filter_congr
    intro x hx
    by_cases hxr : x = r
    · subst hxr
      simp [matchesNumberStatus, hnum, hst, ParcelStatusRegistered]
    · have hne : x.Number ≠ id := fun hxn =>
        hxr (eq_of_number_eq db hwf r x hr hx (hxn.trans hnum.symm))
      simp [matchesNumberStatus, hne, hxr]
  have hcount : db.rows.countP (matchesNumberStatus id ParcelStatusRegistered) ≠ 0 := by
    rw [Ne, List.countP_eq_zero]
    intro hall
    exact hall r hr ((matchesNumberStatus_iff _ _ _).mpr ⟨hnum, hst⟩)
  have hdel : Delete db none id = (none, { db with rows := db.rows.erase r }) := by
    rw [Delete_served, hfilter, if_neg hcount]
  refine ⟨hdel, ?_, ?_⟩
  · intro x
    rw [hdel]
    simp only [hnodup.mem_erase_iff]
    tauto
  · rw [hdel, Get_served]
    have hnone : (db.rows.erase r).filter (fun x => decide (x.Number = id)) = [] := by
      rw [List.filter_eq_nil_iff]
      intro x hx
      have hx' := (hnodup.mem_erase_iff).mp hx
      simp only [decide_eq_true_eq]
      intro hxn
      exact hx'.1 (eq_of_number_eq db hwf r x hr hx'.2 (hxn.trans hnum.symm))
    simp only [hnone]

/-- C2 at a concrete input: deleting key 1 of `twoParcels`. -/
theorem Delete_registered_witness :
    Delete twoParcels none 1 =
        (none, { twoParcels with rows := twoParcels.rows.erase registeredOne }) ∧
      (∀ x, x ∈ (Delete twoParcels none 1).2.rows ↔
        x ∈ twoParcels.rows ∧ x ≠ registeredOne) ∧
      Get (Delete twoParcels none 1).2 none 1 = (Parcel.zero, some ErrNoRows) :=
  Delete_registered twoParcels (by decide) 1 registeredOne (by decide) rfl rfl

/-- A served `Delete` whose `WHERE` clause selects no row reports
`ErrNoRowsDeleted` and leaves the table as it was. -/
theorem Delete_of_no_match (db : DB) (id : Int)
    (h : ∀ r ∈ db.rows, ¬ (r.Number = id ∧ r.Status = "registered")) :
    Delete db none id = (some ErrNoRowsDeleted, db) := by
  have hmiss : ∀ r ∈ db.rows, ¬ matchesNumberStatus id ParcelStatusRegistered r = true :=
    fun r hr hm => h r hr ((matchesNumberStatus_iff _ _ _).mp hm)
  have hcount : db.rows.countP (matchesNumberStatus id ParcelStatusRegistered) = 0 :=
    List.countP_eq_zero.mpr hmiss
  have hfilter : db.rows.filter
      (fun x => !matchesNumberStatus id ParcelStatusRegistered x) = db.rows := by
    rw [List.filter_eq_self]
    intro x hx
    simpa using hmiss x hx
  rw [Delete_served, hfilter, if_pos hcount]

/-- C3. If no row has `number = id` together with status `registered` (the id is
missing, or its row has another status such as `sent`), a served `Delete(id)`
returns `ErrNoRowsDeleted` and leaves the table as it was, so a following
`Get(id)` returns what it returned before the call. -/
theorem Delete_not_registered (db : DB) (id : Int)
    (h : ∀ r ∈ db.rows, ¬ (r.Number = id ∧ r.Status = "registered")) :
    Delete db none id = (some ErrNoRowsDeleted, db) ∧
      ∀ fault, Get (Delete db none id).2 fault id = Get db fault id :=
  ⟨Delete_of_no_match db id h, fun fault => by rw [Delete_of_no_match db id h]⟩

/-- C3 at a concrete input: key 2 of `twoParcels` has status `sent`. -/
theorem Delete_not_registered_witness :
    Delete twoParcels none 2 = (some ErrNoRowsDeleted, twoParcels) ∧
      ∀ fault, Get (Delete twoParcels none 2).2 fault 2 = Get twoParcels fault 2 :=
  Delete_not_registered twoParcels 2 (by decide)

/-! ## SetAddress -/

/-- Under the primary-key constraint, selecting by the key of a stored row gives
that row and nothing else. -/
theorem filter_number_eq_singleton (db : DB) (hwf : db.WF) (r : Parcel) (hr : r ∈ db.rows) :
    db.rows.filter (fun x => decide (x.Number = r.Number)) = [r] := by
  have hnodup : db.rows.Nodup := List.Nodup.of_map _ hwf
  have hcongr : db.rows.filter (fun x => decide (x.Number = r.Number)) =
      db.rows.filter (fun x => decide (x = r)) := by
    apply List.filter_congr
    intro x hx
    by_cases hxr : x = r
    · simp [hxr]
    · have hne : x.Number ≠ r.Number := fun hxn => hxr (eq_of_number_eq db hwf r x hr hx hxn)
      simp [hne, hxr]
  rw [hcongr, List.filter_eq, List.count_eq_one_of_mem hnodup hr]
  rfl

/-- Under the primary-key constraint a served `Get` by the key of a stored row
returns that row. -/
theorem Get_of_mem (db : DB) (hwf : db.WF) (r : Parcel) (hr : r ∈ db.rows) :
    Get db none r.Number = (r, none) := by
  rw [Get_served, filter_number_eq_singleton db hwf r hr]

/-- What `SetAddress` does when the storage layer serves the statement. -/
theorem SetAddress_served (db : DB) (number : Int) (address : String) :
    SetAddress db none number address =
      (if db.rows.countP (matchesNumberStatus number ParcelStatusRegistered) = 0
        then some ErrNoRowsUpdated else none,
       ⟨db.rows.map (fun r => if matchesNumberStatus number ParcelStatusRegistered r
          then { r with Address := address } else r), db.seq⟩) := by
  simp only [SetAddress, ExecContext, DB.exec]
  split_ifs with h1 h2 h2
  · rfl
  · exact absurd (by exact_mod_cast h1) h2
  · exact absurd (by exact_mod_cast h2) h1
  · rfl

/-- A served `SetAddress` whose `WHERE` clause selects no row reports
`ErrNoRowsUpdated` and leaves the table as it was. -/
theorem SetAddress_of_no_match (db : DB) (id : Int) (address : String)
    (h : ∀ r ∈ db.rows, ¬ (r.Number = id ∧ r.Status = "registered")) :
    SetAddress db none id address = (some ErrNoRowsUpdated, db) := by
  have hmiss : ∀ r ∈ db.rows, ¬ matchesNumberStatus id ParcelStatusRegistered r = true :=
    fun r hr hm => h r hr ((matchesNumberStatus_iff _ _ _).mp hm)
  have hcount : db.rows.countP (matchesNumberStatus id ParcelStatusRegistered) = 0 :=
    List.countP_eq_zero.mpr hmiss
  have hmap : db.rows.map (fun r => if matchesNumberStatus id ParcelStatusRegistered r
      then { r with Address := address } else r) = db.rows := by
    conv_rhs => rw [← List.map_id db.rows]
    apply List.map_congr_left
    intro x hx
    simp [hmiss x hx]
  rw [SetAddress_served, hmap, if_pos hcount]

/-- C4. If no row has `number = id` together with status `registered` (the id is
missing, or its row has another status such as `sent`), a served
`SetAddress(id, address)` returns `ErrNoRowsUpdated` and leaves the table as it
was, so a re-read returns the parcel with the address it had before. -/
theorem SetAddress_not_registered (db : DB) (id : Int) (address : String)
    (h : ∀ r ∈ db.rows, ¬ (r.Number = id ∧ r.Status = "registered")) :
    SetAddress db none id address = (some ErrNoRowsUpdated, db) ∧
      ∀ fault, Get (SetAddress db none id address).2 fault id = Get db fault id :=
  ⟨SetAddress_of_no_match db id address h,
    fun fault => by rw [SetAddress_of_no_match db id address h]⟩

/-- C4 at a concrete input: key 2 of `twoParcels` has status `sent`. -/
theorem SetAddress_not_registered_witness :
    SetAddress twoParcels none 2 "new test address" = (some ErrNoRowsUpdated, twoParcels) ∧
      ∀ fault, Get (SetAddress twoParcels none 2 "new test address").2 fault 2 =
        Get twoParcels fault 2 :=
  SetAddress_not_registered twoParcels 2 "new test address" (by decide)

/-- C9. If a row with `number = id` exists and its status is `registered`, a served
`SetAddress(id, a)` returns nil and the table afterwards is the old one with only
that row's address replaced by `a`: every other row is kept as it was, and a
re-read by `Get(id)`, which returned the row before, now returns it with
`Address = a` and `Number`, `Client`, `Status` and `CreatedAt` as they were. -/
theorem SetAddress_registered (db : DB) (hwf : db.WF) (id : Int) (a : String) (r : Parcel)
    (hr : r ∈ db.rows) (hnum : r.Number = id) (hst : r.Status = "registered") :
    SetAddress db none id a =
        (none, ⟨db.rows.map (fun x => if x = r then { r with Address := a } else x),
                db.seq⟩) ∧
      Get db none id = (r, none) ∧
      Get (SetAddress db none id a).2 none id = ({ r with Address := a }, none) := by
  have hcount : db.rows.countP (matchesNumberStatus id ParcelStatusRegistered) ≠ 0 := by
    rw [Ne, List.countP_eq_zero]
    intro hall
    exact hall r hr ((matchesNumberStatus_iff _ _ _).mpr ⟨hnum, hst⟩)
  have hmap : db.rows.map (fun x => if matchesNumberStatus id ParcelStatusRegistered x
      then { x with Address := a } else x) =
      db.rows.map (fun x => if x = r then { r with Address := a } else x) := by
    apply List.map_congr_left
    intro x hx
    by_cases hxr : x = r
    · subst hxr
      simp [matchesNumberStatus, hnum, hst, ParcelStatusRegistered]
    · have hne : x.Number ≠ id := fun hxn =>
        hxr (eq_of_number_eq db hwf r x hr hx (hxn.trans hnum.symm))
      simp [matchesNumberStatus, hne, hxr]
  have hset : SetAddress db none id a =
      (none, ⟨db.rows.map (fun x => if x = r then { r with Address := a } else x),
              db.seq⟩) := by
    rw [SetAddress_served, hmap, if_neg hcount]
  refine ⟨hset, hnum ▸ Get_of_mem db hwf r hr, ?_⟩
  rw [hset, Get_served]
  have hsel : (db.rows.map (fun x => if x = r then { r with Address := a } else x)).filter
      (fun x => decide (x.Number = id)) =
      (db.rows.filter (fun x => decide (x.Number = id))).map
        (fun x => if x = r then { r with Address := a } else x) := by
    rw [List.filter_map]
    congr 1
    apply List.filter_congr
    intro x _
    by_cases hxr : x = r <;> simp [hxr]
  simp only [hsel]
  rw [← hnum, filter_number_eq_singleton db hwf r hr]
  simp

/-- C9 at a concrete input: a new address for key 1 of `twoParcels`. -/
theorem SetAddress_registered_witness :
    SetAddress twoParcels none 1 "new test address" =
        (none, ⟨twoParcels.rows.map
          (fun x => if x = registeredOne
            then { registeredOne with Address := "new test address" } else x),
          twoParcels.seq⟩) ∧
      Get twoParcels none 1 = (registeredOne, none) ∧
      Get (SetAddress twoParcels none 1 "new test address").2 none 1 =
        ({ registeredOne with Address := "new test address" }, none) :=
  SetAddress_registered twoParcels (by decide) 1 "new test address" registeredOne
    (by decide) rfl rfl

/-! ## SetStatus -/

/-- What `SetStatus` does when the storage layer serves the statement. -/
theorem SetStatus_served (db : DB) (number : Int) (status : String) :
    SetStatus db none number status =
      (if db.rows.countP (fun r => decide (r.Number = number)) = 0
        then some ErrNoRowsUpdated else none,
       ⟨db.rows.map (fun r => if r.Number = number then { r with Status := status } else r),
        db.seq⟩) := by
  simp only [SetStatus, ExecContext, DB.exec, decide_eq_true_eq]
  split_ifs with h1 h2 h2
  · rfl
  · exact absurd (by exact_mod_cast h1) h2
  · exact absurd (by exact_mod_cast h2) h1
  · rfl

/-- When the storage layer fails the call, `SetStatus` passes the failure on and
the table is as it was. -/
theorem SetStatus_failed (db : DB) (e : DriverError) (number : Int) (status : String) :
    SetStatus db (some e) number status = (some (storage e), db) := rfl

/-- C8. Whatever the status string `s` and whatever the row's current status, if
a row with `number = id` exists a served `SetStatus(id, s)` returns nil and the
table afterwards is the old one with only that row's status replaced by `s`:
every other row is kept as it was, and a re-read by `Get(id)`, which returned the
row before, now returns it with `Status = s` and `Number`, `Client`, `Address`
and `CreatedAt` as they were. -/
theorem SetStatus_existing (db : DB) (hwf : db.WF) (id : Int) (s : String) (r : Parcel)
    (hr : r ∈ db.rows) (hnum : r.Number = id) :
    SetStatus db none id s =
        (none, ⟨db.rows.map (fun x => if x = r then { r with Status := s } else x),
                db.seq⟩) ∧
      Get db none id = (r, none) ∧
      Get (SetStatus db none id s).2 none id = ({ r with Status := s }, none) := by
  have hcount : db.rows.countP (fun x => decide (x.Number = id)) ≠ 0 := by
    rw [Ne, List.countP_eq_zero]
    intro hall
    exact hall r hr (by simpa using hnum)
  have hmap : db.rows.map (fun x => if x.Number = id then { x with Status := s } else x) =
      db.rows.map (fun x => if x = r then { r with Status := s } else x) := by
    apply List.map_congr_left
    intro x hx
    by_cases hxr : x = r
    · subst hxr
      simp [hnum]
    · have hne : x.Number ≠ id := fun hxn =>
        hxr (eq_of_number_eq db hwf r x hr hx (hxn.trans hnum.symm))
      simp [hne, hxr]
  have hset : SetStatus db none id s =
      (none, ⟨db.rows.map (fun x => if x = r then { r with Status := s } else x),
              db.seq⟩) := by
    rw [SetStatus_served, hmap, if_neg hcount]
  refine ⟨hset, hnum ▸ Get_of_mem db hwf r hr, ?_⟩
  rw [hset, Get_served]
  have hsel : (db.rows.map (fun x => if x = r then { r with Status := s } else x)).filter
      (fun x => decide (x.Number = id)) =
      (db.rows.filter (fun x => decide (x.Number = id))).map
        (fun x => if x = r then { r with Status := s } else x) := by
    rw [List.filter_map]
    congr 1
    apply List.filter_congr
    intro x _
    by_cases hxr : x = r <;> simp [hxr]
  simp only [hsel]
  rw [← hnum, filter_number_eq_singleton db hwf r hr]
  simp

/-- C8 at a concrete input: key 2 of `twoParcels`, already `sent`, is set to a
status outside the known set. -/
theorem SetStatus_existing_witness :
    SetStatus twoParcels none 2 "lost" =
        (none, ⟨twoParcels.rows.map
          (fun x => if x = sentTwo then { sentTwo with Status := "lost" } else x),
          twoParcels.seq⟩) ∧
      Get twoParcels none 2 = (sentTwo, none) ∧
      Get (SetStatus twoParcels none 2 "lost").2 none 2 =
        ({ sentTwo with Status := "lost" }, none) :=
  SetStatus_existing twoParcels (by decide) 2 "lost" sentTwo (by decide) rfl

/-- C10. `SetStatus(id, s)` returns `ErrNoRowsUpdated` exactly when the statement
is served and no row has `number = id`; the table is then as it was; and setting
a row's status to the value it already has returns nil. -/
theorem SetStatus_ErrNoRowsUpdated_iff (db : DB) (fault : Option DriverError) (id : Int)
    (s : String) :
    ((SetStatus db fault id s).1 = some ErrNoRowsUpdated ↔
        fault = none ∧ ∀ r ∈ db.rows, r.Number ≠ id) ∧
      ((SetStatus db fault id s).1 = some ErrNoRowsUpdated →
        (SetStatus db fault id s).2 = db) ∧
      ((∃ r ∈ db.rows, r.Number = id ∧ r.Status = s) → (SetStatus db none id s).1 = none) := by
  have hzero : db.rows.countP (fun r => decide (r.Number = id)) = 0 ↔
      ∀ r ∈ db.rows, r.Number ≠ id := by
    rw [List.countP_eq_zero]
    simp
  have hiff : (SetStatus db fault id s).1 = some ErrNoRowsUpdated ↔
      fault = none ∧ ∀ r ∈ db.rows, r.Number ≠ id := by
    cases fault with
    | some e => simp [SetStatus_failed]
    | none =>
      rw [SetStatus_served, ← hzero]
      by_cases hc : db.rows.countP (fun r => decide (r.Number = id)) = 0 <;> simp [hc]
  refine ⟨hiff, ?_, ?_⟩
  · intro herr
    obtain ⟨hf, hmiss⟩ := hiff.mp herr
    subst hf
    rw [SetStatus_served]
    have hmap : db.rows.map
        (fun r => if r.Number = id then { r with Status := s } else r) = db.rows := by
      conv_rhs => rw [← List.map_id db.rows]
      apply List.map_congr_left
      intro x hx
      simp [hmiss x hx]
    simp only [hmap]
  · rintro ⟨r, hr, hnum, _⟩
    rw [SetStatus_served]
    have hc : db.rows.countP (fun r => decide (r.Number = id)) ≠ 0 :=
      fun h0 => hzero.mp h0 r hr hnum
    simp [hc]

/-- C10 at concrete inputs: key 3 is not in `twoParcels`, so `SetStatus(3, _)`
returns `ErrNoRowsUpdated` and changes nothing; key 2 already has status `sent`,
and setting it to `sent` again returns nil. -/
theorem SetStatus_ErrNoRowsUpdated_iff_witness :
    (SetStatus twoParcels none 3 "sent").1 = some ErrNoRowsUpdated ∧
      (SetStatus twoParcels none 3 "sent").2 = twoParcels ∧
      (SetStatus twoParcels none 2 "sent").1 = none :=
  have hmiss : (SetStatus twoParcels none 3 "sent").1 = some ErrNoRowsUpdated :=
    (SetStatus_ErrNoRowsUpdated_iff twoParcels none 3 "sent").1.mpr ⟨rfl, by decide⟩
  ⟨hmiss, (SetStatus_ErrNoRowsUpdated_iff twoParcels none 3 "sent").2.1 hmiss,
    (SetStatus_ErrNoRowsUpdated_iff twoParcels none 2 "sent").2.2 ⟨sentTwo, by decide, rfl, rfl⟩⟩

/-! ## GetByClient -/

/-- When every scan succeeds the loop appends the streamed rows to `res`, in
the order they arrive. -/
theorem GetByClient.loop_all_ok (ps res : List Parcel) :
    GetByClient.loop (ps.map .ok) res = .ok (res ++ ps) := by
  induction ps generalizing res with
  | nil => simp [GetByClient.loop]
  | cons p ps ih => simp [GetByClient.loop, ih]

/-- C7. When the query and every row scan succeed, `GetByClient(client)` returns a
nil error and a non-nil sequence that holds exactly the rows whose client equals
the argument, each as often as the table holds it and with all five fields as
stored (equal as a multiset); when no row matches, the sequence is the empty
non-nil one. -/
theorem GetByClient_served (db : DB) (client : Int) :
    ∃ res : List Parcel,
      GetByClient db QueryFault.none client = .returned (some res, none) ∧
      res.Perm (db.rows.filter (fun r => decide (r.Client = client))) ∧
      (∀ r, res.count r = if r.Client = client then db.rows.count r else 0) ∧
      ((∀ r ∈ db.rows, r.Client ≠ client) → res = []) := by
  refine ⟨db.rows.filter (fun r => decide (r.Client = client)), ?_, List.Perm.refl _, ?_, ?_⟩
  · simp [GetByClient, QueryContext, Rows.Close, withDeferred, DB.select,
      GetByClient.loop_all_ok]
  · intro r
    by_cases hc : r.Client = client
    · rw [if_pos hc, List.count_filter (by simpa using hc)]
    · rw [if_neg hc, List.count_eq_zero]
      intro hmem
      exact hc (by simpa using (List.mem_filter.mp hmem).2)
  · intro hnone
    rw [List.filter_eq_nil_iff]
    intro r hr
    simpa using hnone r hr

/-- C7 at a concrete input: no parcel of `twoParcels` belongs to client 8, and
the result is the empty non-nil sequence. -/
theorem GetByClient_served_witness :
    ∃ res : List Parcel,
      GetByClient twoParcels QueryFault.none 8 = .returned (some res, none) ∧ res = [] :=
  (GetByClient_served twoParcels 8).imp fun _ h => ⟨h.1, h.2.2.2 (by decide)⟩

/-- A cursor that breaks while the rows are streamed: the rows read so far are
dropped and the storage error is returned. -/
theorem GetByClient_cursor_failure (db : DB) (i : Nat) (e : DriverError) (client : Int) :
    GetByClient db (.cursor i e) client = .returned (none, some (storage e)) := by
  simp only [GetByClient, QueryContext, Rows.Close, withDeferred, GetByClient.loop_all_ok]

/-- C6. When `QueryContext` fails, handing back a nil rows handle and an error,
`GetByClient` does not return `(nil, e)`: the deferred `rows.Close()` was
registered on the nil handle before the error check, and running it on the way
out panics with a nil pointer dereference.  The other methods return the
storage error to their caller. -/
theorem GetByClient_query_failure_panics (db : DB) (e : DriverError) (client : Int) :
    QueryContext db (.query e) (.byClient client) = (none, some (storage e)) ∧
      GetByClient db (.query e) client = .panicked nilDereference ∧
      GetByClient db (.query e) client ≠ .returned (none, some (storage e)) ∧
      Get db (some e) client = (Parcel.zero, some (storage e)) ∧
      (∀ s, SetStatus db (some e) client s = (some (storage e), db)) ∧
      (∀ a, SetAddress db (some e) client a = (some (storage e), db)) ∧
      Delete db (some e) client = (some (storage e), db) ∧
      (∀ p, Add db (some e) p = ((0, some (storage e)), db)) := by
  refine ⟨rfl, rfl, ?_, rfl, fun _ => rfl, fun _ => rfl, rfl, fun _ => rfl⟩
  simp [GetByClient, QueryContext, Rows.Close, withDeferred]

/-! ## A parcel that has left `registered` -/

/-- The table after `Add`: untouched, or extended by the new row under the key
after `maxNumber`. -/
theorem Add_state (db : DB) (fault : Option DriverError) (p : Parcel) :
    (Add db fault p).2 = db ∨
      (Add db fault p).2 =
        ⟨db.rows ++ [insertedRow (db.maxNumber + 1) p], (db.maxNumber + 1).toNat⟩ := by
  cases fault with
  | some e => exact Or.inl rfl
  | none =>
    by_cases hfull : db.maxNumber + 1 > maxInt64
    · left
      simp [Add, ExecContext, DB.exec, hfull]
    · right
      simp [Add, ExecContext, DB.exec, hfull, insertedRow]

theorem Blocked_add (db : DB) (id : Int) (fault : Option DriverError) (p : Parcel)
    (h : Blocked db id) : Blocked (Add db fault p).2 id := by
  rcases Add_state db fault p with heq | heq
  · rw [heq]
    exact h
  · rw [heq]
    obtain ⟨⟨r, hr, hnum⟩, hst⟩ := h
    refine ⟨⟨r, List.mem_append_left _ hr, hnum⟩, ?_⟩
    intro x hx hxn
    rcases List.mem_append.mp hx with hx | hx
    · exact hst x hx hxn
    · have hle := number_le_maxNumber db r hr
      simp only [List.mem_singleton] at hx
      subst hx
      simp only [insertedRow] at hxn
      omega

theorem Blocked_setStatus (db : DB) (id : Int) (fault : Option DriverError) (n : Int)
    (s : String) (hs : n = id → s ≠ "registered") (h : Blocked db id) :
    Blocked (SetStatus db fault n s).2 id := by
  cases fault with
  | some e => exact h
  | none =>
    rw [SetStatus_served]
    obtain ⟨⟨r, hr, hnum⟩, hst⟩ := h
    constructor
    · refine ⟨if r.Number = n then { r with Status := s } else r,
        List.mem_map.mpr ⟨r, hr, rfl⟩, ?_⟩
      split_ifs <;> exact hnum
    · intro x hx hxn
      obtain ⟨y, hy, rfl⟩ := List.mem_map.mp hx
      by_cases hyn : y.Number = n
      · simp only [hyn, if_true] at hxn ⊢
        exact hs hxn
      · simp only [hyn, if_false] at hxn ⊢
        exact hst y hy hxn

theorem Blocked_setAddress (db : DB) (id : Int) (fault : Option DriverError) (n : Int)
    (a : String) (h : Blocked db id) : Blocked (SetAddress db fault n a).2 id := by
  cases fault with
  | some e => exact h
  | none =>
    rw [SetAddress_served]
    obtain ⟨⟨r, hr, hnum⟩, hst⟩ := h
    constructor
    · refine ⟨if matchesNumberStatus n ParcelStatusRegistered r
          then { r with Address := a } else r,
        List.mem_map.mpr ⟨r, hr, rfl⟩, ?_⟩
      split_ifs <;> exact hnum
    · intro x hx hxn
      obtain ⟨y, hy, rfl⟩ := List.mem_map.mp hx
      by_cases hyn : matchesNumberStatus n ParcelStatusRegistered y = true
      · simp only [hyn, if_true] at hxn ⊢
        exact hst y hy hxn
      · simp only [hyn] at hxn ⊢
        exact hst y hy hxn

theorem Blocked_delete (db : DB) (id : Int) (fault : Option DriverError) (n : Int)
    (h : Blocked db id) : Blocked (Delete db fault n).2 id := by
  cases fault with
  | some e => exact h
  | none =>
    rw [Delete_served]
    obtain ⟨⟨r, hr, hnum⟩, hst⟩ := h
    constructor
    · refine ⟨r, List.mem_filter.mpr ⟨hr, ?_⟩, hnum⟩
      have hreg := hst r hr hnum
      simp [matchesNumberStatus, ParcelStatusRegistered, hreg]
    · intro x hx hxn
      exact hst x (List.mem_filter.mp hx).1 hxn

/-- A sequence of operations that never sets the status of `id` to `registered`
keeps the parcel stored and not `registered`. -/
theorem Blocked_runAll (id : Int) (ops : List (Option DriverError × Op)) (db : DB)
    (hops : ∀ fault s, (fault, Op.setStatus id s) ∈ ops → s ≠ "registered")
    (h : Blocked db id) : Blocked (runAll db ops) id := by
  induction ops generalizing db with
  | nil => exact h
  | cons fo rest ih =>
    obtain ⟨fault, op⟩ := fo
    simp only [runAll]
    apply ih
    · intro f s hmem
      exact hops f s (List.mem_cons_of_mem _ hmem)
    · cases op with
      | add p => exact Blocked_add db id fault p h
      | setStatus n s =>
        apply Blocked_setStatus db id fault n s _ h
        intro hn
        subst hn
        exact hops fault s (List.mem_cons_self _ _)
      | setAddress n a => exact Blocked_setAddress db id fault n a h
      | delete n => exact Blocked_delete db id fault n h

/-- C5 as stated fails.  In `sentState` parcel 1 has left `registered`; the one
operation `SetStatus(1, "registered")` brings it back, and after it both
`SetAddress(1, _)` and `Delete(1)` succeed. -/
theorem blocked_forever_counterexample :
    Blocked sentState 1 ∧
      Get sentState none 1 = ({ insertedRow 1 sampleParcel with Status := "sent" }, none) ∧
      Get (runAll sentState [(none, .setStatus 1 "registered")]) none 1 =
        (insertedRow 1 sampleParcel, none) ∧
      (SetAddress (runAll sentState [(none, .setStatus 1 "registered")]) none 1 "x").1 = none ∧
      (Delete (runAll sentState [(none, .setStatus 1 "registered")]) none 1).1 = none := by
  refine ⟨⟨⟨{ insertedRow 1 sampleParcel with Status := "sent" }, by decide, rfl⟩, by decide⟩,
    by decide, by decide, by decide, by decide⟩

/-- C5, amended.  Once a parcel is stored with a status other than `registered`,
every sequence of `Add`, `SetStatus`, `SetAddress` and `Delete` calls that
contains no `SetStatus(id, "registered")` on it leaves it stored and not
`registered`; every later `SetAddress(id, _)` and `Delete(id)` fails and changes
nothing, with `ErrNoRowsUpdated` and `ErrNoRowsDeleted` when the statement is
served. -/
theorem blocked_until_reregistered (db : DB) (id : Int)
    (ops : List (Option DriverError × Op))
    (hstored : ∃ r ∈ db.rows, r.Number = id)
    (hleft : ∀ r ∈ db.rows, r.Number = id → r.Status ≠ "registered")
    (hops : ∀ fault s, (fault, Op.setStatus id s) ∈ ops → s ≠ "registered") :
    (∃ r ∈ (runAll db ops).rows, r.Number = id) ∧
      (∀ r ∈ (runAll db ops).rows, r.Number = id → r.Status ≠ "registered") ∧
      (∀ fault a, (SetAddress (runAll db ops) fault id a).1 ≠ none ∧
        (SetAddress (runAll db ops) fault id a).2 = runAll db ops) ∧
      (∀ fault, (Delete (runAll db ops) fault id).1 ≠ none ∧
        (Delete (runAll db ops) fault id).2 = runAll db ops) ∧
      (∀ a, (SetAddress (runAll db ops) none id a).1 = some ErrNoRowsUpdated) ∧
      (Delete (runAll db ops) none id).1 = some ErrNoRowsDeleted := by
  have hb : Blocked (runAll db ops) id := Blocked_runAll id ops db hops ⟨hstored, hleft⟩
  have hmiss : ∀ r ∈ (runAll db ops).rows, ¬ (r.Number = id ∧ r.Status = "registered") :=
    fun r hr hboth => hb.2 r hr hboth.1 hboth.2
  refine ⟨hb.1, hb.2, ?_, ?_, ?_, ?_⟩
  · intro fault a
    cases fault with
    | some e => exact ⟨by simp [SetAddress, ExecContext], rfl⟩
    | none => rw [SetAddress_of_no_match _ id a hmiss]; exact ⟨by simp, rfl⟩
  · intro fault
    cases fault with
    | some e => exact ⟨by simp [Delete, ExecContext], rfl⟩
    | none => rw [Delete_of_no_match _ id hmiss]; exact ⟨by simp, rfl⟩
  · intro a
    rw [SetAddress_of_no_match _ id a hmiss]
  · rw [Delete_of_no_match _ id hmiss]

/-- C5, amended, at a concrete input: `laterOps` applied to `sentState` leave
parcel 1 blocked. -/
theorem blocked_until_reregistered_witness :
    (∃ r ∈ (runAll sentState laterOps).rows, r.Number = 1) ∧
      (∀ r ∈ (runAll sentState laterOps).rows, r.Number = 1 → r.Status ≠ "registered") ∧
      (∀ fault a, (SetAddress (runAll sentState laterOps) fault 1 a).1 ≠ none ∧
        (SetAddress (runAll sentState laterOps) fault 1 a).2 = runAll sentState laterOps) ∧
      (∀ fault, (Delete (runAll sentState laterOps) fault 1).1 ≠ none ∧
        (Delete (runAll sentState laterOps) fault 1).2 = runAll sentState laterOps) ∧
      (∀ a, (SetAddress (runAll sentState laterOps) none 1 a).1 = some ErrNoRowsUpdated) ∧
      (Delete (runAll sentState laterOps) none 1).1 = some ErrNoRowsDeleted :=
  blocked_until_reregistered sentState 1 laterOps
    ⟨{ insertedRow 1 sampleParcel with Status := "sent" }, by decide, rfl⟩
    (by decide) (by
      intro fault s hmem
      simp [laterOps] at hmem
      rw [hmem.2]
      decide)

/-! ## The primary-key constraint is kept

The theorems on `Delete`, `SetStatus` and `SetAddress` of a stored row assume
`DB.WF`.  Every table the store can produce from the empty one satisfies it. -/

theorem WF_add (db : DB) (fault : Option DriverError) (p : Parcel) (h : db.WF) :
    (Add db fault p).2.WF := by
  rcases Add_state db fault p with heq | heq
  · rw [heq]
    exact h
  · rw [heq]
    unfold DB.WF at h ⊢
    simp only [List.map_append, List.map_cons, List.map_nil]
    refine List.Nodup.append h (List.nodup_singleton _) ?_
    intro n hn hn'
    obtain ⟨r, hr, rfl⟩ := List.mem_map.mp hn
    have hle := number_le_maxNumber db r hr
    simp only [List.mem_singleton, insertedRow] at hn'
    omega

theorem WF_setStatus (db : DB) (fault : Option DriverError) (n : Int) (s : String)
    (h : db.WF) : (SetStatus db fault n s).2.WF := by
  cases fault with
  | some e => exact h
  | none =>
    rw [SetStatus_served]
    unfold DB.WF at h ⊢
    have hkeys : (db.rows.map
        (fun r => if r.Number = n then { r with Status := s } else r)).map Parcel.Number =
        db.rows.map Parcel.Number := by
      rw [List.map_map]
      apply List.map_congr_left
      intro x _
      simp only [Function.comp]
      split_ifs <;> rfl
    simp only [hkeys]
    exact h

theorem WF_setAddress (db : DB) (fault : Option DriverError) (n : Int) (a : String)
    (h : db.WF) : (SetAddress db fault n a).2.WF := by
  cases fault with
  | some e => exact h
  | none =>
    rw [SetAddress_served]
    unfold DB.WF at h ⊢
    have hkeys : (db.rows.map
        (fun r => if matchesNumberStatus n ParcelStatusRegistered r
          then { r with Address := a } else r)).map Parcel.Number =
        db.rows.map Parcel.Number := by
      rw [List.map_map]
      apply List.map_congr_left
      intro x _
      simp only [Function.comp]
      split_ifs <;> rfl
    simp only [hkeys]
    exact h

theorem WF_delete (db : DB) (fault : Option DriverError) (n : Int) (h : db.WF) :
    (Delete db fault n).2.WF := by
  cases fault with
  | some e => exact h
  | none =>
    rw [Delete_served]
    exact List.Nodup.sublist ((List.filter_sublist _).map _) h

/-- Every sequence of operations keeps the primary-key constraint, so every
table reached from the empty one has it. -/
theorem WF_runAll (ops : List (Option DriverError × Op)) (db : DB) (h : db.WF) :
    (runAll db ops).WF := by
  induction ops generalizing db with
  | nil => exact h
  | cons fo rest ih =>
    obtain ⟨fault, op⟩ := fo
    simp only [runAll]
    apply ih
    cases op with
    | add p => exact WF_add db fault p h
    | setStatus n s => exact WF_setStatus db fault n s h
    | setAddress n a => exact WF_setAddress db fault n a h
    | delete n => exact WF_delete db fault n h

theorem WF_reachable (ops : List (Option DriverError × Op)) : (runAll emptyDB ops).WF :=
  WF_runAll ops emptyDB (by decide)

end ParcelStore
